import Mathlib

/-!
Shallow embedding of `src/dir_scan.c` (ncdu's filesystem tree scanner).

The C code walks a directory tree using `chdir`, `lstat`,
`opendir`/`readdir`/`closedir`, and emits a stream of `dir_output.item`
calls (an entry, or NULL to close the most recently opened directory),
finishing with `dir_output.final(fail)`.

The operating-system environment is modelled as an inductive tree
(`FsTree`): each node records the outcome the syscalls would have at that
node (its `lstat` result, whether `chdir` into it and `chdir ".."` back out
succeed, and how its directory listing behaves).  The scanner functions are
translated one-to-one from the C functions and return the list of emitted
events together with the C `int` return value (as a `Bool`).
-/

namespace DirScan

/-- File type extracted from `st_mode`: `S_ISREG`, `S_ISDIR`, or anything
else (symlink, socket, device, ...). -/
inductive FileType where
  | reg
  | dir
  | other
deriving DecidableEq, Repr

/-- The fields of `struct stat` that `dir_scan.c` reads. -/
structure StatRec where
  st_ino : Nat
  st_dev : Nat
  st_nlink : Nat
  mode : FileType
  st_blocks : Nat
  st_size : Nat
deriving DecidableEq, Repr

/-- `S_BLKSIZE`: block unit used to scale `st_blocks`; 512 when the
platform does not define it (dir_scan.c:39-41). -/
def S_BLKSIZE : Nat := 512

/-- The `FF_*` flag bits of `struct dir` used by `dir_scan.c`. -/
structure Flags where
  file : Bool := false
  dir : Bool := false
  hlnkc : Bool := false
  othfs : Bool := false
  excl : Bool := false
  err : Bool := false
deriving DecidableEq, Repr

/-- The fields of `struct dir` populated by the scanner. -/
structure DirEnt where
  name : String
  ino : Nat := 0
  dev : Nat := 0
  size : Nat := 0
  asize : Nat := 0
  flags : Flags := {}
deriving DecidableEq, Repr

/-- Modelled from the spec: `dir_createstruct` lives in another file of the
repository (not under `src/`).  Per §3/§4.2 of the spec an Entry starts
with its name set, sizes at zero and no flags; the classifier later "leaves
sizes at zero" on error, so creation must zero them. -/
def dir_createstruct (name : String) : DirEnt :=
  { name := name }

/-- One call to `dir_output.item`: either with a `struct dir` pointer or
with NULL (closing the most recently opened directory). -/
inductive Ev where
  | item (d : DirEnt)
  | close
deriving DecidableEq, Repr

/-- Behaviour of `opendir`/`readdir`/`closedir` on one directory:
`fatal` = `opendir` itself fails; `readErr k` = opening succeeds but
enumeration stops with an error after `k` names were collected (this also
covers a failing `closedir`, with `k` = all names); `ok` = full success. -/
inductive ListingSpec where
  | fatal
  | readErr (k : Nat)
  | ok
deriving DecidableEq, Repr

/-- The syscall environment for one filesystem object: the outcome of
`lstat` on it (`none` = the call fails), whether `chdir` into it succeeds,
whether `chdir ".."` back out of it succeeds, how listing it behaves, and
its children (in enumeration order, `.` and `..` excluded). -/
inductive FsTree where
  | node (stat : Option StatRec) (chdirInOk : Bool) (chdirOutOk : Bool)
      (listing : ListingSpec) (children : List (String × FsTree))

def FsTree.stat : FsTree → Option StatRec
  | .node s _ _ _ _ => s

def FsTree.chdirInOk : FsTree → Bool
  | .node _ a _ _ _ => a

def FsTree.chdirOutOk : FsTree → Bool
  | .node _ _ b _ _ => b

def FsTree.listing : FsTree → ListingSpec
  | .node _ _ _ l _ => l

def FsTree.children : FsTree → List (String × FsTree)
  | .node _ _ _ _ c => c

/-- The globals read during the walk: `dir_scan_smfs` (stay on the same
filesystem), `curdev` (device of the scan root, set by
`dir_scan_process`), and the external exclusion matcher `exclude_match`
applied to the current path (modelled as a list of path segments). -/
structure Ctx where
  smfs : Bool
  curdev : Nat
  excl : List String → Bool

/-- `stat_to_dir` (dir_scan.c:51-70): populates the `struct dir` item with
information from the stat struct.  Sets everything necessary for
`output_dir.item()` except `FF_ERR` and `FF_EXL`. -/
def stat_to_dir (smfs : Bool) (curdev : Nat) (d : DirEnt) (fs : StatRec) : DirEnt :=
  let d := { d with ino := fs.st_ino, dev := fs.st_dev }
  let d :=
    if fs.mode = FileType.reg then { d with flags := { d.flags with file := true } }
    else if fs.mode = FileType.dir then { d with flags := { d.flags with dir := true } }
    else d
  let d :=
    if fs.mode ≠ FileType.dir ∧ fs.st_nlink > 1 then
      { d with flags := { d.flags with hlnkc := true } }
    else d
  let d :=
    if smfs = true ∧ curdev ≠ fs.st_dev then
      { d with flags := { d.flags with othfs := true } }
    else d
  if (d.flags.othfs || d.flags.excl) = false then
    { d with size := fs.st_blocks * S_BLKSIZE, asize := fs.st_size }
  else d

/-- `dir_read` (dir_scan.c:80-114): reads all filenames in the currently
chdir'ed directory.  Returns `(none, true)` when `opendir` fails (fatal);
otherwise returns the names collected before any read error (paired with
their subtrees, since a name denotes the object the later `lstat` will
see) and the `*err` flag. -/
def dir_read (t : FsTree) : Option (List (String × FsTree)) × Bool :=
  match t.listing with
  | .fatal => (none, true)
  | .readErr k => (some (t.children.take k), true)
  | .ok => (some t.children, false)

theorem sizeOf_take (k : Nat) (l : List (String × FsTree)) :
    sizeOf (l.take k) ≤ sizeOf l := by
  induction l generalizing k with
  | nil => cases k <;> simp [List.take]
  | cons a l ih =>
    cases k with
    | zero =>
      simp only [List.take, List.nil.sizeOf_spec, List.cons.sizeOf_spec]
      omega
    | succ k =>
      simp only [List.take, List.cons.sizeOf_spec]
      have := ih k
      omega

theorem dir_read_sizeOf {t : FsTree} {names : List (String × FsTree)} {b : Bool}
    (h : dir_read t = (some names, b)) : sizeOf names ≤ sizeOf t.children := by
  unfold dir_read at h
  cases hl : t.listing with
  | fatal => rw [hl] at h; simp at h
  | readErr k =>
    rw [hl] at h
    simp only [Prod.mk.injEq, Option.some.injEq] at h
    rw [← h.1]
    exact sizeOf_take k t.children
  | ok =>
    rw [hl] at h
    simp only [Prod.mk.injEq, Option.some.injEq] at h
    rw [← h.1]

theorem sizeOf_children_lt (t : FsTree) : 1 + sizeOf t.children < sizeOf t := by
  rcases t with ⟨s, a, b, l, c⟩
  have hs : 0 < sizeOf s := by
    cases s with
    | none => simp
    | some x => simp only [Option.some.sizeOf_spec]; omega
  simp only [FsTree.children, FsTree.node.sizeOf_spec]
  omega

/-- The classification part of `dir_scan_item` (dir_scan.c:172-181):
exclusion match on the full current path, then `lstat` (skipped when
already errored or excluded, `FF_ERR` on failure), then `stat_to_dir`. -/
def dir_scan_classify (ctx : Ctx) (path : List String) (d : DirEnt) (t : FsTree) : DirEnt :=
  let d := if ctx.excl path then { d with flags := { d.flags with excl := true } } else d
  let d :=
    if (d.flags.err || d.flags.excl) = false ∧ t.stat = none then
      { d with flags := { d.flags with err := true } }
    else d
  match t.stat with
  | some st =>
    if (d.flags.err || d.flags.excl) = false then stat_to_dir ctx.smfs ctx.curdev d st
    else d
  | none => d

mutual

/-- `dir_scan_recurse` (dir_scan.c:121-154): tries to recurse into the
given directory item.  Returns the emitted events and the C return value
(`true` = fatal). -/
def dir_scan_recurse (ctx : Ctx) (path : List String) (d : DirEnt) (t : FsTree) :
    Bool × List Ev :=
  if t.chdirInOk = false then
    (false, [.item { d with flags := { d.flags with err := true } }, .close])
  else
    match h : dir_read t with
    | (none, _) =>
      (!t.chdirOutOk,
       [.item { d with flags := { d.flags with err := true } }, .close])
    | (some names, readFail) =>
      let d := if readFail then { d with flags := { d.flags with err := true } } else d
      let r := dir_walk ctx path (some names)
      if r.1 = false ∧ t.chdirOutOk = false then (true, .item d :: r.2 ++ [.close])
      else (r.1, .item d :: r.2 ++ [.close])
termination_by (sizeOf t, 1)
decreasing_by
  apply Prod.Lex.left
  have h1 := dir_read_sizeOf h
  have h2 := sizeOf_children_lt t
  simp only [Option.some.sizeOf_spec]
  omega

/-- `dir_scan_item` (dir_scan.c:160-193): scans and adds a single item,
recursing into `dir_scan_recurse` if it is an eligible directory.  The
`__CYGWIN__` block is compiled out on the target platform.  Note the C
discards `dir_scan_recurse`'s return value and returns its local `fail`,
which is never assigned. -/
def dir_scan_item (ctx : Ctx) (path : List String) (d : DirEnt) (t : FsTree) :
    Bool × List Ev :=
  let fail := false
  let d := dir_scan_classify ctx path d t
  let evs :=
    if (d.flags.dir && !(d.flags.err || d.flags.excl || d.flags.othfs)) = true then
      (dir_scan_recurse ctx path d t).2
    else if d.flags.dir = true then [.item d, .close]
    else [.item d]
  (fail, evs)
termination_by (sizeOf t, 2)
decreasing_by
  apply Prod.Lex.right
  omega

/-- `dir_walk` (dir_scan.c:199-214): walks through the list of filenames
returned by `dir_read` (possibly NULL), stopping as soon as an item
reports failure. -/
def dir_walk (ctx : Ctx) (path : List String) (dir : Option (List (String × FsTree))) :
    Bool × List Ev :=
  match dir with
  | none => (false, [])
  | some [] => (false, [])
  | some ((name, t) :: rest) =>
    let r := dir_scan_item ctx (path ++ [name]) (dir_createstruct name) t
    if r.1 = true then r
    else
      let r2 := dir_walk ctx path (some rest)
      (r2.1, r.2 ++ r2.2)
termination_by (sizeOf dir, 0)
decreasing_by
  · apply Prod.Lex.left
    simp only [Option.some.sizeOf_spec, List.cons.sizeOf_spec, Prod.mk.sizeOf_spec]
    omega
  · apply Prod.Lex.left
    simp only [Option.some.sizeOf_spec, List.cons.sizeOf_spec]
    omega

end

/-- The per-scan driver environment: outcomes of `path_real` and
`path_chdir` on the requested root (their failure branches in the C are
empty `TODO` blocks), the canonical root path, the root's own node, and
the indeterminate contents the stack's `struct stat` buffer would hold if
`lstat(".")` failed (the C reads it regardless). -/
structure RootEnv where
  path_real_ok : Bool
  path_chdir_ok : Bool
  rootPath : String
  root : FsTree
  junk : StatRec

/-- The `struct stat fs` buffer of `dir_scan_process` after `lstat(".")`:
the root's stat on success, the stack buffer's indeterminate contents when
the call failed (the failure branch is an empty `TODO`). -/
def rootStat (env : RootEnv) : StatRec :=
  match env.root.stat with
  | some fs => fs
  | none => env.junk

/-- The `struct dir` built for the root by `dir_scan_process`
(dir_scan.c:246-249): `dir_createstruct(dir_curpath)`, `FF_ERR` when
`dir_read` reported an error, then `stat_to_dir` — with `curdev` already
holding the root's own device (line 245 runs first). -/
def rootEntry (smfs : Bool) (env : RootEnv) : DirEnt :=
  let d := dir_createstruct env.rootPath
  let d := if (dir_read env.root).2 then { d with flags := { d.flags with err := true } } else d
  stat_to_dir smfs (rootStat env).st_dev d (rootStat env)

/-- The globals as set up by `dir_scan_process` before walking. -/
def scanCtx (smfs : Bool) (excl : List String → Bool) (env : RootEnv) : Ctx :=
  { smfs := smfs, curdev := (rootStat env).st_dev, excl := excl }

/-- `dir_scan_process` (dir_scan.c:218-256): one full scan run.  Returns
the `fail` value passed to `dir_output.final` and the emitted event
stream.  The checks on `path_real`, `path_chdir`, `lstat`/`S_ISDIR` and a
NULL `dir_read` all have empty `/* TODO */` bodies in the C, so every one
of them falls through. -/
def dir_scan_process (smfs : Bool) (excl : List String → Bool) (env : RootEnv) :
    Bool × List Ev :=
  let w := dir_walk (scanCtx smfs excl env) [env.rootPath] (dir_read env.root).1
  (w.1, .item (rootEntry smfs env) :: w.2 ++ [.close])

/-! ## Observables on the event stream -/

/-- Stack-based replay of the event stream: an item carrying `FF_DIR` opens
a directory (push), a NULL item closes one (pop), any other item is a leaf.
`none` means a close arrived at depth zero (the stream went negative). -/
def replay : List Ev → Nat → Option Nat
  | [], n => some n
  | Ev.close :: es, n =>
    match n with
    | 0 => none
    | m + 1 => replay es m
  | Ev.item d :: es, n => replay es (if d.flags.dir then n + 1 else n)

/-- Number of directory-open events: `item` called with a `FF_DIR` entry. -/
def countOpens (es : List Ev) : Nat :=
  es.countP fun e => match e with | .item d => d.flags.dir | .close => false

/-- Number of close events: `item` called with NULL. -/
def countCloses (es : List Ev) : Nat :=
  es.countP fun e => match e with | .item _ => false | .close => true

/-- A stream is balanced when replaying it from any depth returns to that
depth without ever popping past it. -/
def Bal (es : List Ev) : Prop := ∀ n : Nat, replay es n = some n

/-- An emitted event respects size suppression: if its entry carries
`FF_EXL` or `FF_OTHFS`, both size fields are zero. -/
def sizesSuppressed (e : Ev) : Prop :=
  match e with
  | .item d => (d.flags.excl || d.flags.othfs) = true → d.size = 0 ∧ d.asize = 0
  | .close => True

/-! ## Concrete syscall environments used as test inputs -/

def statDir1 : StatRec := ⟨1, 1, 2, .dir, 8, 4096⟩

def statDir2 : StatRec := ⟨3, 1, 2, .dir, 8, 4096⟩

def statDir3 : StatRec := ⟨4, 1, 3, .dir, 16, 8192⟩

def statFile1 : StatRec := ⟨2, 1, 1, .reg, 8, 4096⟩

def statFile2 : StatRec := ⟨5, 1, 2, .reg, 8, 1000⟩

def junk0 : StatRec := ⟨0, 0, 0, .other, 0, 0⟩

/-- An exclusion matcher that never matches. -/
def exclNone : List String → Bool := fun _ => false

/-- An exclusion matcher that matches exactly the path `/r/x`. -/
def exclX : List String → Bool := fun p => p = ["/r", "x"]

/-- Root `/r` with subdirectory `e` from which `chdir("..")` back fails,
followed by a sibling subdirectory `g`. -/
def envBackFail : RootEnv :=
  { path_real_ok := true, path_chdir_ok := true, rootPath := "/r",
    root := .node (some statDir1) true true .ok
      [("e", .node (some statDir2) true false .ok []),
       ("g", .node (some statDir3) true true .ok [])],
    junk := junk0 }

/-- Root `/r` with subdirectory `x` (which has a child `y`) matched by the
exclusion pattern, and a sibling file `f`. -/
def envExcl : RootEnv :=
  { path_real_ok := true, path_chdir_ok := true, rootPath := "/r",
    root := .node (some statDir1) true true .ok
      [("x", .node (some statDir2) true true .ok
          [("y", .node (some statFile1) true true .ok [])]),
       ("f", .node (some statFile1) true true .ok [])],
    junk := junk0 }

/-- A root that fails to resolve and is a regular file rather than a
directory: a configuration error per the spec. -/
def envFileRoot : RootEnv :=
  { path_real_ok := false, path_chdir_ok := false, rootPath := "/r",
    root := .node (some statFile2) true true .ok
      [("a", .node (some statFile1) true true .ok [])],
    junk := junk0 }

/-- A directory root whose own listing fails fatally (`opendir` fails). -/
def envRootFatal : RootEnv :=
  { path_real_ok := true, path_chdir_ok := true, rootPath := "/r",
    root := .node (some statDir1) true true .fatal
      [("a", .node (some statFile1) true true .ok [])],
    junk := junk0 }

/-- A directory holding five files whose enumeration fails after the first
two names were collected. -/
def dNode : FsTree :=
  .node (some statDir2) true true (.readErr 2)
    [("c1", .node (some statFile1) true true .ok []),
     ("c2", .node (some statFile2) true true .ok []),
     ("c3", .node (some statFile1) true true .ok []),
     ("c4", .node (some statFile1) true true .ok []),
     ("c5", .node (some statFile1) true true .ok [])]

/-- Root `/r` containing the partially-listable `d` and a sibling file `s`. -/
def envPartial : RootEnv :=
  { path_real_ok := true, path_chdir_ok := true, rootPath := "/r",
    root := .node (some statDir1) true true .ok
      [("d", dNode), ("s", .node (some statFile1) true true .ok [])],
    junk := junk0 }

/-- A directory on a different device (`st_dev = 2`). -/
def statOtherDev : StatRec := ⟨7, 2, 1, .dir, 8, 4096⟩

/-- A node whose `lstat` fails. -/
def badNode : FsTree := .node none true true .ok []

/-! ## Basic lemmas -/

theorem replay_append (xs ys : List Ev) (n : Nat) :
    replay (xs ++ ys) n = (replay xs n).bind fun m => replay ys m := by
  induction xs generalizing n with
  | nil => simp [replay]
  | cons e xs ih =>
    cases e with
    | item d => simp [replay, ih]
    | close =>
      cases n with
      | zero => simp [replay]
      | succ m => simp [replay, ih]

theorem Bal_append {xs ys : List Ev} (hx : Bal xs) (hy : Bal ys) : Bal (xs ++ ys) := by
  intro n
  rw [replay_append, hx n]
  exact hy n

theorem Bal_leaf {d : DirEnt} (h : d.flags.dir = false) : Bal [Ev.item d] := by
  intro n
  simp [replay, h]

theorem Bal_pair {d : DirEnt} (h : d.flags.dir = true) : Bal [Ev.item d, Ev.close] := by
  intro n
  simp [replay, h]

theorem Bal_wrap {d : DirEnt} {es : List Ev} (h : d.flags.dir = true) (hes : Bal es) :
    Bal (Ev.item d :: es ++ [Ev.close]) := by
  intro n
  rw [show Ev.item d :: es ++ [Ev.close] = [Ev.item d] ++ (es ++ [Ev.close]) by simp]
  rw [replay_append]
  simp only [replay, h, if_true, Option.bind_some, Option.some_bind]
  rw [replay_append, hes (n + 1)]
  simp [replay]

theorem replay_count {es : List Ev} :
    ∀ {n m : Nat}, replay es n = some m → n + countOpens es = m + countCloses es := by
  induction es with
  | nil =>
    intro n m h
    simp [replay] at h
    simp [countOpens, countCloses, h]
  | cons e es ih =>
    intro n m h
    cases e with
    | item d =>
      simp only [replay] at h
      have := ih h
      cases hd : d.flags.dir <;>
        simp [countOpens, countCloses, List.countP_cons, hd] at this ⊢ <;> omega
    | close =>
      cases n with
      | zero => simp [replay] at h
      | succ k =>
        simp only [replay] at h
        have := ih h
        simp [countOpens, countCloses, List.countP_cons] at this ⊢
        omega

/-! ## Step lemmas for the scanner functions -/

theorem dir_scan_item_fst (ctx : Ctx) (path : List String) (d : DirEnt) (t : FsTree) :
    (dir_scan_item ctx path d t).1 = false := by
  simp [dir_scan_item]

theorem dir_walk_none (ctx : Ctx) (path : List String) :
    dir_walk ctx path none = (false, []) := by
  simp [dir_walk]

theorem dir_walk_nil (ctx : Ctx) (path : List String) :
    dir_walk ctx path (some []) = (false, []) := by
  simp [dir_walk]

theorem dir_walk_cons (ctx : Ctx) (path : List String) (name : String) (t : FsTree)
    (rest : List (String × FsTree)) :
    dir_walk ctx path (some ((name, t) :: rest)) =
      ((dir_walk ctx path (some rest)).1,
       (dir_scan_item ctx (path ++ [name]) (dir_createstruct name) t).2
         ++ (dir_walk ctx path (some rest)).2) := by
  simp [dir_walk, dir_scan_item_fst]

theorem dir_walk_fst (ctx : Ctx) (path : List String) :
    ∀ dir, (dir_walk ctx path dir).1 = false := by
  intro dir
  match dir with
  | none => simp [dir_walk_none]
  | some l =>
    induction l with
    | nil => simp [dir_walk_nil]
    | cons a rest ih =>
      obtain ⟨name, t⟩ := a
      simp [dir_walk_cons]
      exact ih

theorem dir_scan_recurse_chdir_fail (ctx : Ctx) (path : List String) (d : DirEnt)
    (t : FsTree) (h : t.chdirInOk = false) :
    dir_scan_recurse ctx path d t =
      (false, [.item { d with flags := { d.flags with err := true } }, .close]) := by
  simp [dir_scan_recurse, h]

theorem dir_scan_recurse_read_none (ctx : Ctx) (path : List String) (d : DirEnt)
    (t : FsTree) (b : Bool) (hin : t.chdirInOk = true) (hr : dir_read t = (none, b)) :
    dir_scan_recurse ctx path d t =
      (!t.chdirOutOk, [.item { d with flags := { d.flags with err := true } }, .close]) := by
  simp [dir_scan_recurse, hin]
  split
  · rfl
  · rename_i heq
    rw [hr] at heq
    simp at heq

theorem dir_scan_recurse_read_fatal (ctx : Ctx) (path : List String) (d : DirEnt)
    (t : FsTree) (hin : t.chdirInOk = true) (hl : t.listing = .fatal) :
    dir_scan_recurse ctx path d t =
      (!t.chdirOutOk, [.item { d with flags := { d.flags with err := true } }, .close]) :=
  dir_scan_recurse_read_none ctx path d t true hin (by simp [dir_read, hl])

theorem dir_scan_recurse_read (ctx : Ctx) (path : List String) (d : DirEnt) (t : FsTree)
    (names : List (String × FsTree)) (readFail : Bool)
    (hin : t.chdirInOk = true) (h : dir_read t = (some names, readFail)) :
    dir_scan_recurse ctx path d t =
      (let d1 := if readFail then { d with flags := { d.flags with err := true } } else d
       let r := dir_walk ctx path (some names)
       if r.1 = false ∧ t.chdirOutOk = false then (true, .item d1 :: r.2 ++ [.close])
       else (r.1, .item d1 :: r.2 ++ [.close])) := by
  simp [dir_scan_recurse, hin]
  split
  · rename_i heq
    rw [h] at heq
    simp at heq
  · rename_i heq
    rw [h] at heq
    injection heq with h1 h2
    injection h1 with h1
    subst h1
    subst h2
    rfl

/-- With the fatal return value discarded by `dir_scan_item`, the events of
`dir_scan_recurse` on a readable directory: the item (flagged `FF_ERR` on a
partial read), the walk of the names read, then the close. -/
theorem dir_scan_recurse_read_snd (ctx : Ctx) (path : List String) (d : DirEnt) (t : FsTree)
    (names : List (String × FsTree)) (readFail : Bool)
    (hin : t.chdirInOk = true) (h : dir_read t = (some names, readFail)) :
    (dir_scan_recurse ctx path d t).2 =
      .item (if readFail then { d with flags := { d.flags with err := true } } else d)
        :: (dir_walk ctx path (some names)).2 ++ [.close] := by
  rw [dir_scan_recurse_read ctx path d t names readFail hin h]
  by_cases hc : (dir_walk ctx path (some names)).1 = false ∧ t.chdirOutOk = false <;>
    simp [hc]

theorem dir_scan_item_snd (ctx : Ctx) (path : List String) (d : DirEnt) (t : FsTree) :
    (dir_scan_item ctx path d t).2 =
      if ((dir_scan_classify ctx path d t).flags.dir
          && !((dir_scan_classify ctx path d t).flags.err
              || (dir_scan_classify ctx path d t).flags.excl
              || (dir_scan_classify ctx path d t).flags.othfs)) = true then
        (dir_scan_recurse ctx path (dir_scan_classify ctx path d t) t).2
      else if (dir_scan_classify ctx path d t).flags.dir = true then
        [.item (dir_scan_classify ctx path d t), .close]
      else [.item (dir_scan_classify ctx path d t)] := by
  simp [dir_scan_item]

/-! ## `stat_to_dir` and `dir_scan_classify` lemmas -/

theorem stat_to_dir_name (smfs : Bool) (curdev : Nat) (d : DirEnt) (fs : StatRec) :
    (stat_to_dir smfs curdev d fs).name = d.name := by
  simp only [stat_to_dir]
  split_ifs <;> rfl

theorem stat_to_dir_err (smfs : Bool) (curdev : Nat) (d : DirEnt) (fs : StatRec) :
    (stat_to_dir smfs curdev d fs).flags.err = d.flags.err := by
  simp only [stat_to_dir]
  split_ifs <;> rfl

theorem stat_to_dir_excl (smfs : Bool) (curdev : Nat) (d : DirEnt) (fs : StatRec) :
    (stat_to_dir smfs curdev d fs).flags.excl = d.flags.excl := by
  simp only [stat_to_dir]
  split_ifs <;> rfl

theorem stat_to_dir_dir (smfs : Bool) (curdev : Nat) (d : DirEnt) (fs : StatRec) :
    (stat_to_dir smfs curdev d fs).flags.dir
      = (d.flags.dir || decide (fs.mode = FileType.dir)) := by
  simp only [stat_to_dir]
  split_ifs <;> simp_all

theorem stat_to_dir_file (smfs : Bool) (curdev : Nat) (d : DirEnt) (fs : StatRec) :
    (stat_to_dir smfs curdev d fs).flags.file
      = (d.flags.file || decide (fs.mode = FileType.reg)) := by
  simp only [stat_to_dir]
  split_ifs <;> simp_all

theorem stat_to_dir_hlnkc (smfs : Bool) (curdev : Nat) (d : DirEnt) (fs : StatRec) :
    (stat_to_dir smfs curdev d fs).flags.hlnkc
      = (d.flags.hlnkc || (decide (fs.mode ≠ FileType.dir) && decide (1 < fs.st_nlink))) := by
  simp only [stat_to_dir]
  split_ifs <;> simp_all

theorem stat_to_dir_othfs (smfs : Bool) (curdev : Nat) (d : DirEnt) (fs : StatRec) :
    (stat_to_dir smfs curdev d fs).flags.othfs
      = (d.flags.othfs || (smfs && decide (curdev ≠ fs.st_dev))) := by
  simp only [stat_to_dir]
  split_ifs <;> simp_all

/-- The sizes are populated only when the populated entry carries neither
`FF_OTHFS` nor `FF_EXL`; otherwise they are left untouched. -/
theorem stat_to_dir_sizes (smfs : Bool) (curdev : Nat) (d : DirEnt) (fs : StatRec)
    (h : ((stat_to_dir smfs curdev d fs).flags.othfs
        || (stat_to_dir smfs curdev d fs).flags.excl) = true) :
    (stat_to_dir smfs curdev d fs).size = d.size
      ∧ (stat_to_dir smfs curdev d fs).asize = d.asize := by
  simp only [stat_to_dir] at h ⊢
  split_ifs at h ⊢ <;> simp_all

/-- `dir_output.final` always receives 0: `dir_scan_item` never assigns the
result of `dir_scan_recurse` to its `fail`, so no failure ever reaches
`dir_walk` or `dir_scan_process`. -/
theorem dir_scan_process_fst (smfs : Bool) (excl : List String → Bool) (env : RootEnv) :
    (dir_scan_process smfs excl env).1 = false := by
  simp [dir_scan_process, dir_walk_fst]

theorem dir_scan_process_snd (smfs : Bool) (excl : List String → Bool) (env : RootEnv) :
    (dir_scan_process smfs excl env).2 =
      .item (rootEntry smfs env)
        :: (dir_walk (scanCtx smfs excl env) [env.rootPath] (dir_read env.root).1).2
        ++ [.close] := by
  simp [dir_scan_process]

/-! ## Balance of the event stream (mutual induction over the walk) -/

theorem Bal_nil : Bal ([] : List Ev) := by
  intro n
  rfl

theorem dir_walk_bal (ctx : Ctx) :
    ∀ (path : List String) (dir : Option (List (String × FsTree))),
    Bal (dir_walk ctx path dir).2 := by
  intro path dir
  refine dir_walk.induct ctx
    (fun path d t => d.flags.dir = true → Bal (dir_scan_recurse ctx path d t).2)
    (fun path dir => Bal (dir_walk ctx path dir).2)
    (fun path d t => Bal (dir_scan_item ctx path d t).2)
    ?_ ?_ ?_ ?_ ?_ ?_ ?_ ?_ ?_ path dir
  · intro path d t h hd
    rw [dir_scan_recurse_chdir_fail ctx path d t h]
    exact Bal_pair (by simp [hd])
  · intro path d t hin snd heq hd
    have hin' : t.chdirInOk = true := by simpa using hin
    rw [dir_scan_recurse_read_none ctx path d t snd hin' heq]
    exact Bal_pair (by simp [hd])
  · intro path d t hin names readFail heq r hcond ih hd
    have hin' : t.chdirInOk = true := by simpa using hin
    show Bal (dir_scan_recurse ctx path d t).2
    rw [dir_scan_recurse_read_snd ctx path d t names readFail hin' heq]
    refine Bal_wrap ?_ ih
    by_cases hrf : readFail = true <;> simp [hrf, hd]
  · intro path d t hin names readFail heq r hcond ih hd
    have hin' : t.chdirInOk = true := by simpa using hin
    show Bal (dir_scan_recurse ctx path d t).2
    rw [dir_scan_recurse_read_snd ctx path d t names readFail hin' heq]
    refine Bal_wrap ?_ ih
    by_cases hrf : readFail = true <;> simp [hrf, hd]
  · intro path
    show Bal (dir_walk ctx path none).2
    rw [dir_walk_none]
    exact Bal_nil
  · intro path
    show Bal (dir_walk ctx path (some [])).2
    rw [dir_walk_nil]
    exact Bal_nil
  · intro path name t rest r hfst _
    exact absurd
      (show (dir_scan_item ctx (path ++ [name]) (dir_createstruct name) t).1 = true from hfst)
      (by simp [dir_scan_item_fst])
  · intro path name t rest r hfst ihItem ihRest
    show Bal (dir_walk ctx path (some ((name, t) :: rest))).2
    rw [dir_walk_cons]
    exact Bal_append ihItem ihRest
  · intro path d t c ih
    show Bal (dir_scan_item ctx path d t).2
    rw [dir_scan_item_snd]
    by_cases h1 : ((dir_scan_classify ctx path d t).flags.dir
        && !((dir_scan_classify ctx path d t).flags.err
            || (dir_scan_classify ctx path d t).flags.excl
            || (dir_scan_classify ctx path d t).flags.othfs)) = true
    · rw [if_pos h1]
      exact ih (by simp at h1; exact h1.1)
    · rw [if_neg h1]
      by_cases h2 : (dir_scan_classify ctx path d t).flags.dir = true
      · rw [if_pos h2]
        exact Bal_pair h2
      · rw [if_neg h2]
        exact Bal_leaf (by simpa using h2)

theorem dir_scan_recurse_bal (ctx : Ctx) (path : List String) (d : DirEnt) (t : FsTree)
    (hd : d.flags.dir = true) : Bal (dir_scan_recurse ctx path d t).2 := by
  by_cases hin : t.chdirInOk = false
  · rw [dir_scan_recurse_chdir_fail ctx path d t hin]
    exact Bal_pair (by simp [hd])
  · have hin' : t.chdirInOk = true := by simpa using hin
    rcases hr : dir_read t with ⟨o, b⟩
    cases o with
    | none =>
      rw [dir_scan_recurse_read_none ctx path d t b hin' hr]
      exact Bal_pair (by simp [hd])
    | some names =>
      rw [dir_scan_recurse_read_snd ctx path d t names b hin' hr]
      exact Bal_wrap (by cases b <;> simp [hd]) (dir_walk_bal ctx path (some names))

/-! ## Size suppression on excluded / other-filesystem entries -/

theorem sizesSuppressed_err {d : DirEnt} (h : sizesSuppressed (.item d)) :
    sizesSuppressed (.item { d with flags := { d.flags with err := true } }) := by
  simp only [sizesSuppressed] at h ⊢
  intro hx
  exact h (by simpa using hx)

theorem stat_to_dir_suppressed (smfs : Bool) (curdev : Nat) (d : DirEnt) (fs : StatRec)
    (hs : d.size = 0) (ha : d.asize = 0) :
    sizesSuppressed (.item (stat_to_dir smfs curdev d fs)) := by
  simp only [sizesSuppressed]
  intro hflag
  have := stat_to_dir_sizes smfs curdev d fs (by rw [Bool.or_comm] at hflag; exact hflag)
  rw [this.1, this.2, hs, ha]
  exact ⟨rfl, rfl⟩

theorem dir_scan_classify_suppressed (ctx : Ctx) (path : List String) (d : DirEnt)
    (t : FsTree) (hs : d.size = 0) (ha : d.asize = 0) :
    sizesSuppressed (.item (dir_scan_classify ctx path d t)) := by
  simp only [dir_scan_classify]
  cases hst : t.stat with
  | none => split_ifs <;> simp [sizesSuppressed, hs, ha]
  | some st =>
    split_ifs <;>
      first
        | exact stat_to_dir_suppressed _ _ _ _ (by simp [hs]) (by simp [ha])
        | simp [sizesSuppressed, hs, ha]

theorem dir_walk_sizes (ctx : Ctx) :
    ∀ (path : List String) (dir : Option (List (String × FsTree))),
    ∀ e ∈ (dir_walk ctx path dir).2, sizesSuppressed e := by
  intro path dir
  refine dir_walk.induct ctx
    (fun path d t => sizesSuppressed (.item d) →
      ∀ e ∈ (dir_scan_recurse ctx path d t).2, sizesSuppressed e)
    (fun path dir => ∀ e ∈ (dir_walk ctx path dir).2, sizesSuppressed e)
    (fun path d t => d.size = 0 → d.asize = 0 →
      ∀ e ∈ (dir_scan_item ctx path d t).2, sizesSuppressed e)
    ?_ ?_ ?_ ?_ ?_ ?_ ?_ ?_ ?_ path dir
  · intro path d t h hd e he
    rw [dir_scan_recurse_chdir_fail ctx path d t h] at he
    simp only [List.mem_cons, List.mem_singleton, List.not_mem_nil] at he
    rcases he with rfl | he
    · exact sizesSuppressed_err hd
    · rcases he with rfl | he
      · exact trivial
      · exact absurd he (by simp)
  · intro path d t hin snd heq hd e he
    have hin' : t.chdirInOk = true := by simpa using hin
    rw [dir_scan_recurse_read_none ctx path d t snd hin' heq] at he
    simp only [List.mem_cons, List.mem_singleton, List.not_mem_nil] at he
    rcases he with rfl | he
    · exact sizesSuppressed_err hd
    · rcases he with rfl | he
      · exact trivial
      · exact absurd he (by simp)
  · intro path d t hin names readFail heq r hcond ih hd e he
    have hin' : t.chdirInOk = true := by simpa using hin
    rw [show (dir_scan_recurse ctx path d t).2 = _ from
      dir_scan_recurse_read_snd ctx path d t names readFail hin' heq] at he
    simp only [List.mem_cons, List.mem_append, List.mem_singleton, List.not_mem_nil,
      or_false] at he
    rcases he with (rfl | he) | rfl
    · cases hrf : readFail with
      | true => rw [hrf] at *; exact sizesSuppressed_err hd
      | false => rw [hrf] at *; simpa using hd
    · exact ih e he
    · exact trivial
  · intro path d t hin names readFail heq r hcond ih hd e he
    have hin' : t.chdirInOk = true := by simpa using hin
    rw [show (dir_scan_recurse ctx path d t).2 = _ from
      dir_scan_recurse_read_snd ctx path d t names readFail hin' heq] at he
    simp only [List.mem_cons, List.mem_append, List.mem_singleton, List.not_mem_nil,
      or_false] at he
    rcases he with (rfl | he) | rfl
    · cases hrf : readFail with
      | true => rw [hrf] at *; exact sizesSuppressed_err hd
      | false => rw [hrf] at *; simpa using hd
    · exact ih e he
    · exact trivial
  · intro path e he
    rw [dir_walk_none] at he
    exact absurd he (by simp)
  · intro path e he
    rw [dir_walk_nil] at he
    exact absurd he (by simp)
  · intro path name t rest r hfst _
    exact absurd
      (show (dir_scan_item ctx (path ++ [name]) (dir_createstruct name) t).1 = true from hfst)
      (by simp [dir_scan_item_fst])
  · intro path name t rest r hfst ihItem ihRest e he
    rw [show (dir_walk ctx path (some ((name, t) :: rest))).2 = _ from
      congrArg Prod.snd (dir_walk_cons ctx path name t rest)] at he
    simp only [List.mem_append] at he
    rcases he with he | he
    · exact ihItem rfl rfl e he
    · exact ihRest e he
  · intro path d t c ih hs ha e he
    rw [dir_scan_item_snd] at he
    have hcls := dir_scan_classify_suppressed ctx path d t hs ha
    by_cases h1 : ((dir_scan_classify ctx path d t).flags.dir
        && !((dir_scan_classify ctx path d t).flags.err
            || (dir_scan_classify ctx path d t).flags.excl
            || (dir_scan_classify ctx path d t).flags.othfs)) = true
    · rw [if_pos h1] at he
      exact ih hcls e he
    · rw [if_neg h1] at he
      by_cases h2 : (dir_scan_classify ctx path d t).flags.dir = true
      · rw [if_pos h2] at he
        simp only [List.mem_cons, List.mem_singleton, List.not_mem_nil] at he
        rcases he with rfl | he
        · exact hcls
        · rcases he with rfl | he
          · exact trivial
          · exact absurd he (by simp)
      · rw [if_neg h2] at he
        simp only [List.mem_singleton] at he
        rw [he]
        exact hcls

/-! ## Properties of the root entry built by `dir_scan_process` -/

theorem rootEntry_suppressed (smfs : Bool) (env : RootEnv) :
    sizesSuppressed (.item (rootEntry smfs env)) := by
  simp only [rootEntry]
  exact stat_to_dir_suppressed _ _ _ _
    (by cases hb : (dir_read env.root).2 <;> simp [hb, dir_createstruct])
    (by cases hb : (dir_read env.root).2 <;> simp [hb, dir_createstruct])

theorem rootEntry_othfs (smfs : Bool) (env : RootEnv) :
    (rootEntry smfs env).flags.othfs = false := by
  simp only [rootEntry]
  rw [stat_to_dir_othfs]
  cases hb : (dir_read env.root).2 <;> simp [hb, dir_createstruct]

theorem rootEntry_excl (smfs : Bool) (env : RootEnv) :
    (rootEntry smfs env).flags.excl = false := by
  simp only [rootEntry]
  rw [stat_to_dir_excl]
  cases hb : (dir_read env.root).2 <;> simp [hb, dir_createstruct]

theorem rootEntry_err (smfs : Bool) (env : RootEnv) :
    (rootEntry smfs env).flags.err = (dir_read env.root).2 := by
  simp only [rootEntry]
  rw [stat_to_dir_err]
  cases hb : (dir_read env.root).2 <;> simp [hb, dir_createstruct]

theorem rootEntry_dir (smfs : Bool) (env : RootEnv) :
    (rootEntry smfs env).flags.dir = decide ((rootStat env).mode = FileType.dir) := by
  simp only [rootEntry]
  rw [stat_to_dir_dir]
  cases hb : (dir_read env.root).2 <;> simp [hb, dir_createstruct]

theorem dir_scan_process_sizes (smfs : Bool) (excl : List String → Bool) (env : RootEnv) :
    ∀ e ∈ (dir_scan_process smfs excl env).2, sizesSuppressed e := by
  intro e he
  rw [dir_scan_process_snd] at he
  simp only [List.mem_cons, List.mem_append, List.mem_singleton, List.not_mem_nil,
    or_false] at he
  rcases he with (rfl | he) | rfl
  · exact rootEntry_suppressed smfs env
  · exact dir_walk_sizes _ _ _ e he
  · exact trivial

/-! ## Name tracking: every walked child yields an event bearing its name -/

theorem dir_scan_classify_name (ctx : Ctx) (path : List String) (d : DirEnt) (t : FsTree) :
    (dir_scan_classify ctx path d t).name = d.name := by
  simp only [dir_scan_classify]
  cases hst : t.stat <;> split_ifs <;> simp [stat_to_dir_name]

theorem dir_scan_recurse_first (ctx : Ctx) (path : List String) (d : DirEnt) (t : FsTree) :
    ∃ d' rest, (dir_scan_recurse ctx path d t).2 = .item d' :: rest ∧ d'.name = d.name := by
  by_cases hin : t.chdirInOk = false
  · rw [dir_scan_recurse_chdir_fail ctx path d t hin]
    exact ⟨_, _, rfl, rfl⟩
  · have hin' : t.chdirInOk = true := by simpa using hin
    rcases hr : dir_read t with ⟨o, b⟩
    cases o with
    | none =>
      rw [dir_scan_recurse_read_none ctx path d t b hin' hr]
      exact ⟨_, _, rfl, rfl⟩
    | some names =>
      rw [dir_scan_recurse_read_snd ctx path d t names b hin' hr]
      exact ⟨_, _, rfl, by cases b <;> simp⟩

theorem dir_scan_item_name_mem (ctx : Ctx) (path : List String) (d : DirEnt) (t : FsTree) :
    ∃ d', Ev.item d' ∈ (dir_scan_item ctx path d t).2 ∧ d'.name = d.name := by
  rw [dir_scan_item_snd]
  by_cases h1 : ((dir_scan_classify ctx path d t).flags.dir
      && !((dir_scan_classify ctx path d t).flags.err
          || (dir_scan_classify ctx path d t).flags.excl
          || (dir_scan_classify ctx path d t).flags.othfs)) = true
  · rw [if_pos h1]
    obtain ⟨d', rest, hfst, hname⟩ :=
      dir_scan_recurse_first ctx path (dir_scan_classify ctx path d t) t
    exact ⟨d', by rw [hfst]; simp, by rw [hname, dir_scan_classify_name]⟩
  · rw [if_neg h1]
    by_cases h2 : (dir_scan_classify ctx path d t).flags.dir = true
    · rw [if_pos h2]
      exact ⟨_, by simp, dir_scan_classify_name ctx path d t⟩
    · rw [if_neg h2]
      exact ⟨_, by simp, dir_scan_classify_name ctx path d t⟩

theorem dir_walk_names (ctx : Ctx) (path : List String) :
    ∀ (cs : List (String × FsTree)), ∀ p ∈ cs,
    ∃ d', Ev.item d' ∈ (dir_walk ctx path (some cs)).2 ∧ d'.name = p.1 := by
  intro cs
  induction cs with
  | nil => intro p hp; exact absurd hp (by simp)
  | cons a rest ih =>
    obtain ⟨name, t⟩ := a
    intro p hp
    rcases List.mem_cons.mp hp with heq | hp'
    · subst heq
      obtain ⟨d', hmem, hname⟩ :=
        dir_scan_item_name_mem ctx (path ++ [name]) (dir_createstruct name) t
      refine ⟨d', ?_, by simpa [dir_createstruct] using hname⟩
      rw [show (dir_walk ctx path (some ((name, t) :: rest))).2 = _ from
        congrArg Prod.snd (dir_walk_cons ctx path name t rest)]
      exact List.mem_append.mpr (Or.inl hmem)
    · obtain ⟨d', hmem, hname⟩ := ih p hp'
      refine ⟨d', ?_, hname⟩
      rw [show (dir_walk ctx path (some ((name, t) :: rest))).2 = _ from
        congrArg Prod.snd (dir_walk_cons ctx path name t rest)]
      exact List.mem_append.mpr (Or.inr hmem)

/-! ## The claims -/

/-- C1: the spec says that when returning to the parent fails after a
successful descent, the fatal status is threaded back through every
recursive return, no further directories are processed, and
`onFinalize(true)` is called.  On `envBackFail` — `chdir("..")` out of `e`
fails — `dir_scan_recurse` does return the fatal flag (second conjunct),
but `dir_scan_item` (dir_scan.c:185) discards it, so the sibling directory
`g` is still scanned and `dir_output.final` receives 0 (first conjunct). -/
theorem c1_chdir_back_failure_not_propagated :
    dir_scan_process false exclNone envBackFail =
      (false,
       [.item { name := "/r", ino := 1, dev := 1, size := 4096, asize := 4096,
                flags := { dir := true } },
        .item { name := "e", ino := 3, dev := 1, size := 4096, asize := 4096,
                flags := { dir := true } },
        .close,
        .item { name := "g", ino := 4, dev := 1, size := 8192, asize := 8192,
                flags := { dir := true } },
        .close, .close])
    ∧ (dir_scan_recurse (scanCtx false exclNone envBackFail) ["/r", "e"]
        { name := "e", ino := 3, dev := 1, size := 4096, asize := 4096,
          flags := { dir := true } }
        (.node (some statDir2) true false .ok [])).1 = true := by
  constructor
  · simp [dir_scan_process, scanCtx, rootEntry, rootStat, dir_read, dir_walk, dir_scan_item,
      dir_scan_classify, dir_scan_recurse, stat_to_dir, dir_createstruct, FsTree.stat,
      FsTree.listing, FsTree.children, FsTree.chdirInOk, FsTree.chdirOutOk, envBackFail,
      statDir1, statDir2, statDir3, exclNone, S_BLKSIZE, junk0]
  · simp [dir_scan_recurse, dir_read, dir_walk, FsTree.listing, FsTree.children,
      FsTree.chdirInOk, FsTree.chdirOutOk]

/-- C2: for every scanned tree (the root's stat succeeded and reports a
directory), the event stream is balanced: as many directory-open events as
close events, and a stack-based replay from depth zero never goes negative
and ends at zero — per-entry errors included, since every emission site
pairs an `FF_DIR` item with a close. -/
theorem c2_event_stream_balanced (smfs : Bool) (excl : List String → Bool)
    (env : RootEnv) (fs : StatRec) (hstat : env.root.stat = some fs)
    (hdir : fs.mode = FileType.dir) :
    countOpens (dir_scan_process smfs excl env).2
      = countCloses (dir_scan_process smfs excl env).2
    ∧ replay (dir_scan_process smfs excl env).2 0 = some 0 := by
  have hroot : (rootEntry smfs env).flags.dir = true := by
    rw [rootEntry_dir]
    simp [rootStat, hstat, hdir]
  have hbal : Bal (dir_scan_process smfs excl env).2 := by
    rw [dir_scan_process_snd]
    exact Bal_wrap hroot (dir_walk_bal _ _ _)
  refine ⟨?_, hbal 0⟩
  have := replay_count (hbal 0)
  omega

theorem c2_event_stream_balanced_witness :
    countOpens (dir_scan_process false exclNone envBackFail).2
      = countCloses (dir_scan_process false exclNone envBackFail).2
    ∧ replay (dir_scan_process false exclNone envBackFail).2 0 = some 0 :=
  c2_event_stream_balanced false exclNone envBackFail statDir1 rfl rfl

/-- C3 (counterexample): scanning `envExcl`, where directory `x` (which
has a child `y`) is excluded, produces exactly one event for `x` — a
single leaf item with `FF_EXL` set and `FF_DIR` not set — rather than the
open event directly followed by a close event that the claim states: the
whole stream contains a single close (the root's), not two. -/
theorem c3_excluded_dir_counterexample :
    dir_scan_process false exclX envExcl =
      (false,
       [.item { name := "/r", ino := 1, dev := 1, size := 4096, asize := 4096,
                flags := { dir := true } },
        .item { name := "x", flags := { excl := true } },
        .item { name := "f", ino := 2, dev := 1, size := 4096, asize := 4096,
                flags := { file := true } },
        .close])
    ∧ countCloses (dir_scan_process false exclX envExcl).2 = 1 := by
  have h : dir_scan_process false exclX envExcl =
      (false,
       [.item { name := "/r", ino := 1, dev := 1, size := 4096, asize := 4096,
                flags := { dir := true } },
        .item { name := "x", flags := { excl := true } },
        .item { name := "f", ino := 2, dev := 1, size := 4096, asize := 4096,
                flags := { file := true } },
        .close]) := by
    simp [dir_scan_process, scanCtx, rootEntry, rootStat, dir_read, dir_walk, dir_scan_item,
      dir_scan_classify, dir_scan_recurse, stat_to_dir, dir_createstruct, FsTree.stat,
      FsTree.listing, FsTree.children, FsTree.chdirInOk, FsTree.chdirOutOk, envExcl,
      statDir1, statDir2, statFile1, exclX, S_BLKSIZE, junk0]
  refine ⟨h, ?_⟩
  rw [h]
  decide

/-- C3 (amended): for every entry whose full current path matches an
exclusion rule, the walker does not descend into it: no events are emitted
for any of its descendants, and the excluded entry appears in the event
stream as a single childless leaf event with `Excluded` set — its stat is
skipped, so it is never typed as a directory and no open/close pair is
emitted for it. -/
theorem c3_excluded_entry_single_leaf (ctx : Ctx) (path : List String) (name : String)
    (t : FsTree) (hexcl : ctx.excl path = true) :
    dir_scan_item ctx path (dir_createstruct name) t =
      (false, [.item { name := name, ino := 0, dev := 0, size := 0, asize := 0,
                       flags := { file := false, dir := false, hlnkc := false,
                                  othfs := false, excl := true, err := false } }]) := by
  cases hst : t.stat <;>
    simp [dir_scan_item, dir_scan_classify, hexcl, hst, dir_createstruct]

theorem c3_excluded_entry_single_leaf_witness :
    dir_scan_item ⟨false, 1, exclX⟩ ["/r", "x"] (dir_createstruct "x")
        (.node (some statDir2) true true .ok
          [("y", .node (some statFile1) true true .ok [])]) =
      (false, [.item { name := "x", ino := 0, dev := 0, size := 0, asize := 0,
                       flags := { file := false, dir := false, hlnkc := false,
                                  othfs := false, excl := true, err := false } }]) :=
  c3_excluded_entry_single_leaf ⟨false, 1, exclX⟩ ["/r", "x"] "x" _ (by decide)

/-- C4: the spec says an unresolvable or non-directory root is a
configuration error, reported, and the scan never starts (no events).  In
the code every such check (`path_real`, `path_chdir`, `lstat`/`S_ISDIR`)
is an empty `/* TODO */` block: on `envFileRoot`, whose root does not
resolve and is a regular file, the scan runs anyway, walks the listing and
emits a non-empty event stream. -/
theorem c4_config_error_scan_still_runs :
    dir_scan_process false exclNone envFileRoot =
      (false,
       [.item { name := "/r", ino := 5, dev := 1, size := 4096, asize := 1000,
                flags := { file := true, hlnkc := true } },
        .item { name := "a", ino := 2, dev := 1, size := 4096, asize := 4096,
                flags := { file := true } },
        .close])
    ∧ (dir_scan_process false exclNone envFileRoot).2 ≠ [] := by
  have h : dir_scan_process false exclNone envFileRoot =
      (false,
       [.item { name := "/r", ino := 5, dev := 1, size := 4096, asize := 1000,
                flags := { file := true, hlnkc := true } },
        .item { name := "a", ino := 2, dev := 1, size := 4096, asize := 4096,
                flags := { file := true } },
        .close]) := by
    simp [dir_scan_process, scanCtx, rootEntry, rootStat, dir_read, dir_walk, dir_scan_item,
      dir_scan_classify, dir_scan_recurse, stat_to_dir, dir_createstruct, FsTree.stat,
      FsTree.listing, FsTree.children, FsTree.chdirInOk, FsTree.chdirOutOk, envFileRoot,
      statFile1, statFile2, exclNone, S_BLKSIZE, junk0]
  refine ⟨h, ?_⟩
  rw [h]
  simp

/-- C5: for every entry emitted during a scan, whenever `FF_EXL` or
`FF_OTHFS` is set on it, both `size` (sizeOnDisk) and `asize`
(sizeApparent) are zero: the size-population step of `stat_to_dir` is
guarded by the absence of both flags, and excluded entries never reach
`stat_to_dir` at all. -/
theorem c5_sizes_zero_when_excluded_or_otherfs (smfs : Bool)
    (excl : List String → Bool) (env : RootEnv) (d : DirEnt)
    (hmem : Ev.item d ∈ (dir_scan_process smfs excl env).2)
    (hflag : (d.flags.excl || d.flags.othfs) = true) :
    d.size = 0 ∧ d.asize = 0 :=
  dir_scan_process_sizes smfs excl env (Ev.item d) hmem hflag

theorem c5_sizes_zero_witness :
    ({ name := "x", flags := { excl := true } } : DirEnt).size = 0
    ∧ ({ name := "x", flags := { excl := true } } : DirEnt).asize = 0 := by
  refine c5_sizes_zero_when_excluded_or_otherfs false exclX envExcl
    { name := "x", flags := { excl := true } } ?_ (by decide)
  have h : (dir_scan_process false exclX envExcl).2 =
      [.item { name := "/r", ino := 1, dev := 1, size := 4096, asize := 4096,
               flags := { dir := true } },
       .item { name := "x", flags := { excl := true } },
       .item { name := "f", ino := 2, dev := 1, size := 4096, asize := 4096,
               flags := { file := true } },
       .close] := by
    simp [dir_scan_process, scanCtx, rootEntry, rootStat, dir_read, dir_walk, dir_scan_item,
      dir_scan_classify, dir_scan_recurse, stat_to_dir, dir_createstruct, FsTree.stat,
      FsTree.listing, FsTree.children, FsTree.chdirInOk, FsTree.chdirOutOk, envExcl,
      statDir1, statDir2, statFile1, exclX, S_BLKSIZE, junk0]
  rw [h]
  simp

/-- C6: when listing a directory fails partway (`readErr k`), `dir_read`
still returns the `k` names collected so far with the non-fatal error flag
(first conjunct); `dir_scan_recurse` flags the owning directory `FF_ERR`,
emits its open event, the events of every collected name, and its close,
returning a non-fatal status (second conjunct); every collected name
appears in those events (third conjunct); the walk then continues with the
directory's siblings (fourth conjunct); the consumer's finalize hook
always receives a non-fatal status (fifth conjunct); and only a failure to
open the directory at all returns no names (sixth conjunct). -/
theorem c6_partial_listing_nonfatal (ctx : Ctx) (path : List String) (d : DirEnt)
    (t : FsTree) (k : Nat) (hin : t.chdirInOk = true) (hout : t.chdirOutOk = true)
    (hl : t.listing = .readErr k) :
    dir_read t = (some (t.children.take k), true)
    ∧ dir_scan_recurse ctx path d t =
        (false, .item { d with flags := { d.flags with err := true } }
           :: (dir_walk ctx path (some (t.children.take k))).2 ++ [.close])
    ∧ (∀ p ∈ t.children.take k,
        ∃ d', Ev.item d' ∈ (dir_walk ctx path (some (t.children.take k))).2
          ∧ d'.name = p.1)
    ∧ (∀ (name : String) (rest : List (String × FsTree)),
        (dir_walk ctx path (some ((name, t) :: rest))).2 =
          (dir_scan_item ctx (path ++ [name]) (dir_createstruct name) t).2
            ++ (dir_walk ctx path (some rest)).2)
    ∧ (∀ (smfs : Bool) (excl : List String → Bool) (env : RootEnv),
        (dir_scan_process smfs excl env).1 = false)
    ∧ (∀ t' : FsTree, t'.listing = .fatal → dir_read t' = (none, true)) := by
  have hread : dir_read t = (some (t.children.take k), true) := by simp [dir_read, hl]
  refine ⟨hread, ?_, ?_, ?_, ?_, ?_⟩
  · rw [dir_scan_recurse_read ctx path d t (t.children.take k) true hin hread]
    simp [dir_walk_fst, hout]
  · exact dir_walk_names ctx path (t.children.take k)
  · intro name rest
    exact congrArg Prod.snd (dir_walk_cons ctx path name t rest)
  · intro smfs excl env
    exact dir_scan_process_fst smfs excl env
  · intro t' hl'
    simp [dir_read, hl']

theorem c6_partial_listing_nonfatal_witness :
    dir_read dNode = (some (dNode.children.take 2), true)
    ∧ dir_scan_recurse ⟨false, 1, exclNone⟩ ["/r", "d"] (dir_createstruct "d") dNode =
        (false, .item { dir_createstruct "d" with
            flags := { (dir_createstruct "d").flags with err := true } }
           :: (dir_walk ⟨false, 1, exclNone⟩ ["/r", "d"] (some (dNode.children.take 2))).2
           ++ [.close])
    ∧ (∀ p ∈ dNode.children.take 2,
        ∃ d', Ev.item d' ∈ (dir_walk ⟨false, 1, exclNone⟩ ["/r", "d"]
            (some (dNode.children.take 2))).2 ∧ d'.name = p.1)
    ∧ (∀ (name : String) (rest : List (String × FsTree)),
        (dir_walk ⟨false, 1, exclNone⟩ ["/r", "d"] (some ((name, dNode) :: rest))).2 =
          (dir_scan_item ⟨false, 1, exclNone⟩ (["/r", "d"] ++ [name])
              (dir_createstruct name) dNode).2
            ++ (dir_walk ⟨false, 1, exclNone⟩ ["/r", "d"] (some rest)).2)
    ∧ (∀ (smfs : Bool) (excl : List String → Bool) (env : RootEnv),
        (dir_scan_process smfs excl env).1 = false)
    ∧ (∀ t' : FsTree, t'.listing = .fatal → dir_read t' = (none, true)) :=
  c6_partial_listing_nonfatal ⟨false, 1, exclNone⟩ ["/r", "d"] (dir_createstruct "d")
    dNode 2 rfl rfl rfl

/-- C7: for a successfully stat'ed entry whose `FF_HLNKC` is not already
set, `stat_to_dir` sets it exactly when the object is not a directory and
its hard-link count exceeds one — so a regular file with link count 2 gets
it, the same file with link count 1 does not, and a directory never does
regardless of its link count. -/
theorem c7_hardlink_candidate_iff (smfs : Bool) (curdev : Nat) (d : DirEnt)
    (fs : StatRec) (h : d.flags.hlnkc = false) :
    (stat_to_dir smfs curdev d fs).flags.hlnkc = true
      ↔ (fs.mode ≠ FileType.dir ∧ 1 < fs.st_nlink) := by
  rw [stat_to_dir_hlnkc, h]
  simp

theorem c7_hardlink_candidate_iff_witness :
    (stat_to_dir false 0 (dir_createstruct "f") statFile2).flags.hlnkc = true
      ↔ (statFile2.mode ≠ FileType.dir ∧ 1 < statFile2.st_nlink) :=
  c7_hardlink_candidate_iff false 0 (dir_createstruct "f") statFile2 rfl

/-- C8: with the stay-on-same-filesystem policy, `stat_to_dir` sets
`FF_OTHFS` exactly when the entry's device differs from the captured root
device (first conjunct); and because `dir_scan_process` stores
`curdev = fs.st_dev` from the root's own stat before classifying the root
entry, the root entry itself never carries `FF_OTHFS` (second conjunct). -/
theorem c8_otherfs_device_boundary (smfs : Bool) (curdev : Nat) (d : DirEnt)
    (fs : StatRec) (h : d.flags.othfs = false) :
    ((stat_to_dir smfs curdev d fs).flags.othfs = true
      ↔ (smfs = true ∧ curdev ≠ fs.st_dev))
    ∧ ∀ (smfs' : Bool) (env : RootEnv), (rootEntry smfs' env).flags.othfs = false := by
  constructor
  · rw [stat_to_dir_othfs, h]
    simp
  · intro smfs' env
    exact rootEntry_othfs smfs' env

theorem c8_otherfs_device_boundary_witness :
    ((stat_to_dir true 1 (dir_createstruct "m") statOtherDev).flags.othfs = true
      ↔ (true = true ∧ 1 ≠ statOtherDev.st_dev))
    ∧ ∀ (smfs' : Bool) (env : RootEnv), (rootEntry smfs' env).flags.othfs = false :=
  c8_otherfs_device_boundary true 1 (dir_createstruct "m") statOtherDev rfl

/-- C9: an entry whose `lstat` fails (and which is not excluded) gets
`FF_ERR`, neither `FF_FILE` nor `FF_DIR`, keeps both sizes at zero, and is
emitted as a single leaf event with no recursion attempted. -/
theorem c9_stat_failure_zero_leaf (ctx : Ctx) (path : List String) (name : String)
    (t : FsTree) (hstat : t.stat = none) (hexcl : ctx.excl path = false) :
    dir_scan_item ctx path (dir_createstruct name) t =
      (false, [.item { name := name, ino := 0, dev := 0, size := 0, asize := 0,
                       flags := { file := false, dir := false, hlnkc := false,
                                  othfs := false, excl := false, err := true } }]) := by
  simp [dir_scan_item, dir_scan_classify, hstat, hexcl, dir_createstruct]

theorem c9_stat_failure_zero_leaf_witness :
    dir_scan_item ⟨false, 1, exclNone⟩ ["/r", "b"] (dir_createstruct "b") badNode =
      (false, [.item { name := "b", ino := 0, dev := 0, size := 0, asize := 0,
                       flags := { file := false, dir := false, hlnkc := false,
                                  othfs := false, excl := false, err := true } }]) :=
  c9_stat_failure_zero_leaf ⟨false, 1, exclNone⟩ ["/r", "b"] "b" badNode rfl rfl

/-- C10: when reading the root's own listing fails — fatally (`opendir`
fails, no names) or partially (`readErr k`) — the scan still completes:
the root entry is a directory open event flagged `FF_ERR`, its close event
is emitted, the events in between are exactly those of the collected names
(none in the fatal case), and the status passed to the consumer's finalize
hook is non-fatal. -/
theorem c10_root_listing_failure_nonfatal (smfs : Bool) (excl : List String → Bool)
    (env : RootEnv) (fs : StatRec) (hstat : env.root.stat = some fs)
    (hdir : fs.mode = FileType.dir) :
    (rootEntry smfs env).flags.dir = true
    ∧ (env.root.listing = .fatal →
        (rootEntry smfs env).flags.err = true
        ∧ dir_scan_process smfs excl env = (false, [.item (rootEntry smfs env), .close]))
    ∧ (∀ k, env.root.listing = .readErr k →
        (rootEntry smfs env).flags.err = true
        ∧ dir_scan_process smfs excl env =
            (false,
             .item (rootEntry smfs env)
               :: (dir_walk (scanCtx smfs excl env) [env.rootPath]
                     (some (env.root.children.take k))).2 ++ [.close])) := by
  refine ⟨?_, ?_, ?_⟩
  · rw [rootEntry_dir]
    simp [rootStat, hstat, hdir]
  · intro hl
    have h1 : dir_read env.root = (none, true) := by simp [dir_read, hl]
    refine ⟨by rw [rootEntry_err, h1], ?_⟩
    have h2 : (dir_scan_process smfs excl env).2 = [.item (rootEntry smfs env), .close] := by
      rw [dir_scan_process_snd, h1, dir_walk_none]
      rfl
    calc dir_scan_process smfs excl env
        = ((dir_scan_process smfs excl env).1, (dir_scan_process smfs excl env).2) := rfl
      _ = (false, [.item (rootEntry smfs env), .close]) := by
          rw [dir_scan_process_fst, h2]
  · intro k hl
    have h1 : dir_read env.root = (some (env.root.children.take k), true) := by
      simp [dir_read, hl]
    refine ⟨by rw [rootEntry_err, h1], ?_⟩
    have h2 : (dir_scan_process smfs excl env).2 =
        .item (rootEntry smfs env)
          :: (dir_walk (scanCtx smfs excl env) [env.rootPath]
                (some (env.root.children.take k))).2 ++ [.close] := by
      rw [dir_scan_process_snd, h1]
    calc dir_scan_process smfs excl env
        = ((dir_scan_process smfs excl env).1, (dir_scan_process smfs excl env).2) := rfl
      _ = _ := by rw [dir_scan_process_fst, h2]

theorem c10_root_listing_failure_nonfatal_witness :
    (rootEntry false envRootFatal).flags.dir = true
    ∧ (envRootFatal.root.listing = .fatal →
        (rootEntry false envRootFatal).flags.err = true
        ∧ dir_scan_process false exclNone envRootFatal =
            (false, [.item (rootEntry false envRootFatal), .close]))
    ∧ (∀ k, envRootFatal.root.listing = .readErr k →
        (rootEntry false envRootFatal).flags.err = true
        ∧ dir_scan_process false exclNone envRootFatal =
            (false,
             .item (rootEntry false envRootFatal)
               :: (dir_walk (scanCtx false exclNone envRootFatal) [envRootFatal.rootPath]
                     (some (envRootFatal.root.children.take k))).2 ++ [.close])) :=
  c10_root_listing_failure_nonfatal false exclNone envRootFatal statDir1 rfl rfl

end DirScan
